import Mathlib

/-!
Verification development for the attack-paths viewer.

The definitions below are shallow embeddings of the data model and the
pure logic found in the repository source: the type declarations of
src/types.ts, the index build and the technique resolution of the
AttackPaths component, the step resolution of the PathVisualization
component, the graph layout, and the data loaders.  JavaScript values
that may be absent are modelled with Option, JavaScript Map objects are
modelled with insertion-ordered association lists, and the few regular
expressions of the source are modelled with direct character scanners
whose semantics follow the JavaScript regex engine on the patterns in
question.
-/

/-- An identifier in a method step: the source allows number or string. -/
inductive StepId where
  | num (n : Int)
  | str (s : String)
deriving DecidableEq, Repr

/-- MethodStep of src/types.ts. -/
structure MethodStep where
  step_id : Option StepId := none
  description : String
  related_capabilities : Option (List String) := none
  related_interfaces : Option (List String) := none
  related_data : Option (List String) := none
  notes : Option String := none
deriving DecidableEq, Repr

/-- AttackFlowStep of src/types.ts. -/
structure AttackFlowStep where
  step_name : String
  step_description : String
  step_mitre_tactic : String
  step_mitre_technique : String
deriving DecidableEq, Repr

/-- Technique of src/types.ts. -/
structure Technique where
  stix_id : Option String := none
  name : String
  rationale : Option String := none
  tactic : Option String := none
deriving DecidableEq, Repr

/-- AdversarialMethod of src/types.ts. -/
structure AdversarialMethod where
  tactic_name : String
  selected_techniques : Option (List Technique) := none
  method_steps : Option (List MethodStep) := none
  can_achieve : Option Bool := none
  capabilities_used : Option (List String) := none
  interfaces_used : Option (List String) := none
  data_accessed : Option (List String) := none
  preconditions_required : Option (List String) := none
  constraints_encountered : Option (List String) := none
  evasion_considerations : Option (List String) := none
  resulting_access : Option String := none
  comments : Option String := none
deriving DecidableEq, Repr

/-- Hypothesis of src/types.ts. -/
structure Hypothesis where
  attack_flow_hypothesis : Option (List AttackFlowStep) := none
  starting_tactic : Option String := none
  objective_tactic : Option String := none
  attack_target : Option String := none
  preconditions : Option String := none
  scenario_name : Option String := none
deriving DecidableEq, Repr

/-- Finding of src/types.ts. -/
structure Finding where
  scenario_name : Option String := none
  hypothesis : Option Hypothesis := none
  adversarial_methods : Option (List AdversarialMethod) := none
  method : Option AdversarialMethod := none
deriving DecidableEq, Repr

/-- AttackPathsData of src/types.ts. -/
structure AttackPathsData where
  attack_paths : List Finding
  application_name : Option String := none
deriving DecidableEq, Repr

/-- InitialAccessVector of src/types.ts. -/
structure InitialAccessVector where
  can_achieve : Option Bool := none
  technique_name : String
  technique_stix_id : Option String := none
  method_steps : Option (List MethodStep) := none
  capabilities_used : Option (List String) := none
  interfaces_used : Option (List String) := none
  data_accessed : Option (List String) := none
  preconditions_required : Option (List String) := none
  constraints_encountered : Option (List String) := none
  evasion_considerations : Option (List String) := none
  resulting_access : Option String := none
  comments : Option String := none
deriving DecidableEq, Repr

/-- InitialAccessData of src/types.ts. -/
structure InitialAccessData where
  application_name : String
  initial_access_vectors : List InitialAccessVector
deriving DecidableEq, Repr

/-- TacticVector of src/types.ts (comprehensive-analysis vector). -/
structure TacticVector where
  can_achieve : Option Bool := none
  technique_name : String
  technique_stix_id : Option String := none
  method_steps : Option (List MethodStep) := none
  capabilities_used : Option (List String) := none
  interfaces_used : Option (List String) := none
  data_accessed : Option (List String) := none
  preconditions_required : Option (List String) := none
  constraints_encountered : Option (List String) := none
  evasion_considerations : Option (List String) := none
  resulting_access : Option String := none
  comments : Option String := none
deriving DecidableEq, Repr

/-- TacticExplorerOutput of src/types.ts. -/
structure TacticExplorerOutput where
  vectors : List TacticVector
deriving DecidableEq, Repr

/-- ComprehensiveAnalysisResults of src/types.ts. -/
structure ComprehensiveAnalysisResults where
  application_name : String
  initial_access : TacticExplorerOutput
  discovery : TacticExplorerOutput
  execution : TacticExplorerOutput
  persistence : TacticExplorerOutput
  privilege_escalation : TacticExplorerOutput
  defense_evasion : TacticExplorerOutput
  credential_access : TacticExplorerOutput
  lateral_movement : TacticExplorerOutput
  collection : TacticExplorerOutput
  command_and_control : TacticExplorerOutput
  exfiltration : TacticExplorerOutput
  impact : TacticExplorerOutput
deriving DecidableEq, Repr

/-- TechniqueInfo of src/types.ts (selected matrix cell). -/
structure TechniqueInfo where
  tactic : String
  techniqueKey : String
  technique : Technique
deriving DecidableEq, Repr

/-- TechniqueSpecificInfo of src/types.ts (result of technique resolution). -/
structure TechniqueSpecificInfo where
  method : AdversarialMethod
  technique : Technique
  rationale : Option String := none
  methodSteps : List AttackFlowStep
  allMethodSteps : List MethodStep := []
deriving DecidableEq, Repr

/-! ## JavaScript value helpers -/

/-- JavaScript `a || b` on an optional string: an absent or empty string
falls back to the alternative. -/
def strOr (a : Option String) (b : String) : String :=
  match a with
  | some s => if s = "" then b else s
  | none => b

/-- JavaScript truthiness of an optional string value. -/
def strTruthy (a : Option String) : Bool :=
  match a with
  | some s => s ≠ ""
  | none => false

/-- Character-list test: does the second list occur at the start of the first. -/
def chListStartsWith : List Char → List Char → Bool
  | _, [] => true
  | [], _ :: _ => false
  | c :: cs, d :: ds => c = d && chListStartsWith cs ds

/-- JavaScript `hay.includes(needle)` on strings. -/
def containsStr (hay needle : String) : Bool :=
  containsStrAux hay.data needle.data
where
  containsStrAux : List Char → List Char → Bool
    | cs, needle =>
      if chListStartsWith cs needle then true
      else
        match cs with
        | [] => false
        | _ :: tail => containsStrAux tail needle

/-- Lower-case a string character by character, as toLowerCase does on
the ASCII data of the artifacts. -/
def lowerStr (s : String) : String :=
  String.mk (s.data.map Char.toLower)

/-- Upper-case a string character by character. -/
def upperStr (s : String) : String :=
  String.mk (s.data.map Char.toUpper)

/-- Drop whitespace from both ends, as trim does. -/
def jsTrim (s : String) : String :=
  String.mk (((s.data.dropWhile (·.isWhitespace)).reverse.dropWhile
    (·.isWhitespace)).reverse)

/-- Split on a single separator character, keeping empty segments, as
split does with a one-character separator. -/
def splitOnCharAux (sep : Char) : List Char → List Char → List String
  | [], acc => [String.mk acc.reverse]
  | c :: rest, acc =>
    if c = sep then String.mk acc.reverse :: splitOnCharAux sep rest []
    else splitOnCharAux sep rest (c :: acc)

/-- Split a string on one separator character. -/
def splitOnChar (sep : Char) (s : String) : List String :=
  splitOnCharAux sep s.data []

/-- Split on every character satisfying a test, keeping empty segments;
used for the whitespace split of the keyword matcher, whose empty
segments are discarded by the length filter that follows. -/
def splitOnPredAux (p : Char → Bool) : List Char → List Char → List String
  | [], acc => [String.mk acc.reverse]
  | c :: rest, acc =>
    if p c then String.mk acc.reverse :: splitOnPredAux p rest []
    else splitOnPredAux p rest (c :: acc)

/-- Split a string on a character test. -/
def splitOnPred (p : Char → Bool) (s : String) : List String :=
  splitOnPredAux p s.data []

/-- Replace every dot with a dash, as the replace call of the key
synthesis does. -/
def replaceDotDash (s : String) : String :=
  String.mk (s.data.map fun c => if c = '.' then '-' else c)

/-! ## Scanners for the regular expressions of the source

The source uses the patterns T####(.###)?, the same pattern with the i
or g flags, an attack-pattern STIX form, and a dash-separated display
name.  The scanners below reproduce the JavaScript engine behaviour on
those patterns: leftmost match, greedy optional group, non-overlapping
repetition for the g flag. -/

/-- Try to match T followed by four digits and an optional dot plus three
digits at the head of the character list.  Returns candidate
(matched, remainder) pairs in greedy order. -/
def tIdAt (ci : Bool) (cs : List Char) : List (List Char × List Char) :=
  match cs with
  | t :: d1 :: d2 :: d3 :: d4 :: rest =>
    if (t = 'T' || (ci && t = 't')) && d1.isDigit && d2.isDigit && d3.isDigit && d4.isDigit then
      let base := [t, d1, d2, d3, d4]
      match rest with
      | '.' :: e1 :: e2 :: e3 :: rest2 =>
        if e1.isDigit && e2.isDigit && e3.isDigit then
          [(base ++ ['.', e1, e2, e3], rest2), (base, rest)]
        else [(base, rest)]
      | _ => [(base, rest)]
    else []
  | _ => []

/-- First (leftmost) T#### match in a character list. -/
def firstTIdAux (ci : Bool) : List Char → Option String
  | [] => none
  | c :: tail =>
    match tIdAt ci (c :: tail) with
    | (m, _) :: _ => some (String.mk m)
    | [] => firstTIdAux ci tail

/-- JavaScript str.match with the T#### pattern, first match. -/
def firstTId (ci : Bool) (s : String) : Option String :=
  firstTIdAux ci s.data

/-- All non-overlapping T#### matches, as the g flag produces them.  The
fuel argument bounds recursion and is set to the input length. -/
def allTIdsAux (ci : Bool) : Nat → List Char → List String
  | 0, _ => []
  | _ + 1, [] => []
  | fuel + 1, c :: tail =>
    match tIdAt ci (c :: tail) with
    | (m, rest) :: _ => String.mk m :: allTIdsAux ci fuel rest
    | [] => allTIdsAux ci fuel tail

/-- JavaScript str.match with the T#### pattern and the g flag; an empty
result models the null return. -/
def allTIds (ci : Bool) (s : String) : List String :=
  allTIdsAux ci s.data.length s.data

/-- Greedy whitespace run followed by a non-empty dot-plus group: the tail
of the dash pattern.  Mirrors the backtracking of the engine when the
remaining text is all whitespace. -/
def matchWsThenRest (t : List Char) : Option (List Char) :=
  let m := (t.takeWhile (·.isWhitespace)).length
  ((List.range (m + 1)).reverse).findSome? fun j =>
    match t.drop j with
    | c :: _ =>
      if c = '\n' then none
      else some ((t.drop j).takeWhile (· ≠ '\n'))
    | [] => none

/-- Match the whole dash pattern at one position: a T#### id, optional
whitespace, an en dash or hyphen, optional whitespace, then the captured
remainder. -/
def matchNameAt (cs : List Char) : Option String :=
  (tIdAt false cs).findSome? fun (_, rest) =>
    let m := (rest.takeWhile (·.isWhitespace)).length
    match rest.drop m with
    | c :: rest2 =>
      if c = '–' || c = '-' then (matchWsThenRest rest2).map String.mk
      else none
    | [] => none

/-- Leftmost match of the dash pattern; returns the captured group. -/
def matchNameFirstAux : List Char → Option String
  | [] => none
  | c :: tail =>
    match matchNameAt (c :: tail) with
    | some r => some r
    | none => matchNameFirstAux tail

/-- JavaScript str.match with the T#### dash name pattern; returns the
second capture group of the first match. -/
def matchNameFirst (s : String) : Option String :=
  matchNameFirstAux s.data

/-- Case-insensitive literal match at the head of a character list; the
literal is given lower-cased.  Returns the remainder on success. -/
def ciDropLit : List Char → List Char → Option (List Char)
  | [], rest => some rest
  | _ :: _, [] => none
  | l :: ls, c :: cs => if c.toLower = l then ciDropLit ls cs else none

/-- Match the attack-pattern STIX id pattern at one position, returning
the digits group (four digits with an optional dot plus three digits). -/
def stixTIdAt (cs : List Char) : Option String :=
  match ciDropLit "attack-pattern--t".data cs with
  | none => none
  | some rest =>
    match rest with
    | d1 :: d2 :: d3 :: d4 :: rest2 =>
      if d1.isDigit && d2.isDigit && d3.isDigit && d4.isDigit then
        match rest2 with
        | '.' :: e1 :: e2 :: e3 :: _ =>
          if e1.isDigit && e2.isDigit && e3.isDigit then
            some (String.mk [d1, d2, d3, d4, '.', e1, e2, e3])
          else some (String.mk [d1, d2, d3, d4])
        | _ => some (String.mk [d1, d2, d3, d4])
      else none
    | _ => none

/-- Leftmost match of the attack-pattern STIX id pattern in a string. -/
def firstStixTIdAux : List Char → Option String
  | [] => none
  | c :: tail =>
    match stixTIdAt (c :: tail) with
    | some r => some r
    | none => firstStixTIdAux tail

/-- JavaScript str.match with the attack-pattern STIX pattern, digits
capture group of the first match. -/
def firstStixTId (s : String) : Option String :=
  firstStixTIdAux s.data

/-! ## Technique keys and id matching -/

/-- The key of a technique in the matrix: stix_id when truthy, else name
(the expression technique.stix_id or technique.name of the source). -/
def keyOfTechnique (t : Technique) : String :=
  strOr t.stix_id t.name

/-- techniqueIdsMatch of the AttackPaths component: two MITRE ids match
when their parts before the first dot agree, so a sub-technique id
matches its parent technique id. -/
def techniqueIdsMatch (id1 id2 : String) : Bool :=
  ((splitOnChar '.' id1).headD "") == ((splitOnChar '.' id2).headD "")

/-- extractTechniqueIdFromKey of the AttackPaths component: read a MITRE
technique id out of a technique key, first from the attack-pattern STIX
form, else from a direct case-insensitive T#### occurrence. -/
def extractTechniqueIdFromKey (key : String) : Option String :=
  match firstStixTId key with
  | some digits => some ("T" ++ digits)
  | none => firstTId true key

/-- extractTechniqueId of the AttackPaths index build: first
case-sensitive T#### occurrence in a string. -/
def extractTechniqueId (s : Option String) : Option String :=
  match s with
  | none => none
  | some str => firstTId false str

/-! ## Insertion-ordered association lists standing in for Map -/

/-- Map.set for a key known new or already absent tests first: set the
key only when it is not present, as the guarded set calls of the source. -/
def alSetIfAbsent {α : Type} (m : List (String × α)) (k : String) (v : α) :
    List (String × α) :=
  if (List.lookup k m).isSome then m else m ++ [(k, v)]

/-- Update the value stored at one key in place. -/
def alUpdate {α : Type} (m : List (String × α)) (k : String) (f : α → α) :
    List (String × α) :=
  m.map fun p => if p.1 = k then (p.1, f p.2) else p

/-- The two derived indexes of the AttackPaths load: tactic name to
(technique key to technique), and full key tactic::techniqueKey to the
findings exercising the technique. -/
structure IndexState where
  techniquesMap : List (String × List (String × Technique)) := []
  findingsMap : List (String × List Finding) := []
deriving DecidableEq, Repr

/-! ## Index build of the AttackPaths component (loadData) -/

/-- Register one technique under its tactic and record the finding under
the full key, deduplicating findings by scenario_name, as the shared
tail of both branches of the index build. -/
def registerTechnique (tacticName techniqueKey : String) (technique : Technique)
    (attackPath : Finding) (method : AdversarialMethod) (st : IndexState) :
    IndexState :=
  let fullKey := tacticName ++ "::" ++ techniqueKey
  let tm := alUpdate st.techniquesMap tacticName fun tacticMap =>
    alSetIfAbsent tacticMap techniqueKey technique
  let fm0 :=
    if (List.lookup fullKey st.findingsMap).isSome then st.findingsMap
    else st.findingsMap ++ [(fullKey, [])]
  let fm := alUpdate fm0 fullKey fun findings =>
    if findings.any (fun f => f.scenario_name = attackPath.scenario_name) then findings
    else findings ++ [{ attackPath with method := some method }]
  ⟨tm, fm⟩

/-- Process the fallback branch of the index build for one semicolon
segment of one step: extract a T#### id, synthesize the key, skip keys
already seen for this method, else register the synthesized technique. -/
def processSegment (attackPath : Finding) (method : AdversarialMethod)
    (step : AttackFlowStep) (acc : IndexState × List String)
    (techniqueStr : String) : IndexState × List String :=
  match firstTId false techniqueStr with
  | none => acc
  | some techniqueId =>
    let techniqueKey := "attack-pattern--" ++ replaceDotDash (lowerStr techniqueId)
    if acc.2.contains techniqueKey then acc
    else
      let techniqueName :=
        match matchNameFirst techniqueStr with
        | some g => jsTrim g
        | none => techniqueStr
      let technique : Technique :=
        { stix_id := some techniqueKey
          name := techniqueName
          rationale := if step.step_description = "" then none else some step.step_description
          tactic := some method.tactic_name }
      (registerTechnique method.tactic_name techniqueKey technique attackPath method acc.1,
        acc.2 ++ [techniqueKey])

/-- Process one adversarial method of one finding during the index
build.  A method with an empty tactic name is skipped, and a method
whose can_achieve flag is not exactly true is skipped. -/
def processMethod (attackPath : Finding) (st : IndexState)
    (method : AdversarialMethod) : IndexState :=
  if method.tactic_name = "" then st
  else if method.can_achieve ≠ some true then st
  else
    let st1 : IndexState :=
      ⟨alSetIfAbsent st.techniquesMap method.tactic_name [], st.findingsMap⟩
    match method.selected_techniques with
    | some ts =>
      ts.foldl (fun st2 t =>
        registerTechnique method.tactic_name (keyOfTechnique t)
          { t with tactic := some method.tactic_name } attackPath method st2) st1
    | none =>
      let attackFlow := (attackPath.hypothesis.bind (·.attack_flow_hypothesis)).getD []
      let matchingSteps := attackFlow.filter
        (fun step => step.step_mitre_tactic = method.tactic_name)
      (matchingSteps.foldl (fun acc step =>
        let techniqueStrings :=
          ((splitOnChar ';' step.step_mitre_technique).map jsTrim).filter (· ≠ "")
        techniqueStrings.foldl (processSegment attackPath method step) acc)
        (st1, [])).1

/-- The index build of the AttackPaths component: fold the loaded attack
paths into the two derived indexes. -/
def loadDataIndexes (attack_paths : List Finding) : IndexState :=
  attack_paths.foldl (fun st attackPath =>
    match attackPath.adversarial_methods with
    | some ms => ms.foldl (processMethod attackPath) st
    | none => st) ⟨[], []⟩

/-! ## Technique-specific resolution of the AttackPaths component -/

/-- The attack flow list of a finding, empty when absent. -/
def hypFlow (finding : Finding) : List AttackFlowStep :=
  (finding.hypothesis.bind (·.attack_flow_hypothesis)).getD []

/-- The stoplist of short words excluded from keyword matching. -/
def stopWords : List String := ["and", "the", "via", "for", "with"]

/-- The keyword list of a technique name: whitespace-separated words of
more than three characters that are not stop words. -/
def keyWordsOf (techniqueNameStr : String) : List String :=
  (splitOnPred (·.isWhitespace) techniqueNameStr).filter
    (fun word => word.length > 3 && !(stopWords.contains word))

/-- The step filter of the selected_techniques branch of
getTechniqueSpecificInfo: id match, then keyword containment within the
same tactic, then the single-method-in-tactic last resort. -/
def caseOneStepMatch (finding : Finding) (method : AdversarialMethod)
    (technique : Technique) (techniqueName : Option String)
    (step : AttackFlowStep) : Bool :=
  let stepTechnique := lowerStr step.step_mitre_technique
  let stepTactic := lowerStr step.step_mitre_tactic
  let methodTactic := lowerStr method.tactic_name
  let stepTechniqueIds := allTIds true stepTechnique
  let techniqueNameStr := lowerStr (strOr techniqueName technique.name)
  let stepTechniqueId := firstTId true techniqueNameStr
  let idHit :=
    match stepTechniqueId with
    | some sid => stepTechniqueIds.any (fun id => upperStr id = upperStr sid)
    | none => false
  if idHit then true
  else
    let keyWords := keyWordsOf techniqueNameStr
    if !keyWords.isEmpty
        && keyWords.any (fun word => containsStr stepTechnique word)
        && stepTactic = methodTactic then
      true
    else
      let methodsInSameTactic := (finding.adversarial_methods.getD []).filter
        (fun m => lowerStr m.tactic_name = methodTactic)
      decide (stepTactic = methodTactic ∧ methodsInSameTactic.length = 1)

/-- The predicate deciding whether one semicolon segment of a step
carries an id matching the requested technique id. -/
def segmentMatchesId (tid : String) (seg : String) : Bool :=
  (allTIds true seg).any (fun id => techniqueIdsMatch (upperStr id) (upperStr tid))

/-- The step filter of the no-selected_techniques branch: same tactic and
some semicolon segment whose id matches the requested id. -/
def caseTwoStepMatch (methodTactic tid : String) (step : AttackFlowStep) : Bool :=
  lowerStr step.step_mitre_tactic = methodTactic
    && (((splitOnChar ';' step.step_mitre_technique).map jsTrim).filter (· ≠ "")).any
        (segmentMatchesId tid)

/-- The display-name search over the matching steps of the
no-selected_techniques branch, with the break-on-change behaviour of the
source loop: each step contributes the first segment that matches the id
and yields a dash name, and the loop stops once the running value
differs from the requested name. -/
def resolveNameFromSteps (techniqueName : Option String) (tid : String) :
    List AttackFlowStep → Option String → Option String
  | [], acc => acc
  | step :: rest, acc =>
    let segs := ((splitOnChar ';' step.step_mitre_technique).map jsTrim).filter (· ≠ "")
    let acc2 :=
      match segs.findSome? (fun seg =>
        if segmentMatchesId tid seg then (matchNameFirst seg).map jsTrim else none) with
      | some nm => some nm
      | none => acc
    if acc2 ≠ techniqueName then acc2
    else resolveNameFromSteps techniqueName tid rest acc2

/-- The no-selected_techniques branch of getTechniqueSpecificInfo for one
method, given the extracted technique id. -/
def caseTwoResolve (finding : Finding) (techniqueKey : String)
    (techniqueName : Option String) (techniqueId : Option String)
    (method : AdversarialMethod) : Option TechniqueSpecificInfo :=
  match techniqueId with
  | none => none
  | some tid =>
    let methodTactic := lowerStr method.tactic_name
    let matchingSteps := (hypFlow finding).filter (caseTwoStepMatch methodTactic tid)
    match matchingSteps with
    | [] => none
    | firstStep :: _ =>
      let resolved := resolveNameFromSteps techniqueName tid matchingSteps techniqueName
      let technique : Technique :=
        { stix_id := some techniqueKey
          name := strOr resolved (strOr techniqueName "Unknown")
          rationale :=
            if firstStep.step_description = "" then none
            else some firstStep.step_description
          tactic := none }
      some { method := method
             technique := technique
             rationale := technique.rationale
             methodSteps := matchingSteps
             allMethodSteps := method.method_steps.getD [] }

/-- Resolution attempt for one method of the finding: the tactic filter,
then the selected_techniques branch, falling back to the
no-selected_techniques branch. -/
def methodResolve (finding : Finding) (techniqueKey : String)
    (techniqueName : Option String) (tacticName : String)
    (techniqueId : Option String) (method : AdversarialMethod) :
    Option TechniqueSpecificInfo :=
  if tacticName ≠ "" && method.tactic_name ≠ ""
      && lowerStr method.tactic_name ≠ lowerStr tacticName then none
  else
    match method.selected_techniques with
    | some ts =>
      match ts.find? (fun t => keyOfTechnique t = techniqueKey) with
      | some technique =>
        some { method := method
               technique := technique
               rationale := technique.rationale
               methodSteps := (hypFlow finding).filter
                 (caseOneStepMatch finding method technique techniqueName)
               allMethodSteps := method.method_steps.getD [] }
      | none => caseTwoResolve finding techniqueKey techniqueName techniqueId method
    | none => caseTwoResolve finding techniqueKey techniqueName techniqueId method

/-- getTechniqueSpecificInfo of the AttackPaths component: scan the
finding's methods in order and return the first resolution, or none. -/
def getTechniqueSpecificInfo (finding : Finding) (techniqueKey : String)
    (techniqueName : Option String) (tacticName : String) :
    Option TechniqueSpecificInfo :=
  match finding.adversarial_methods with
  | none => none
  | some ms =>
    let techniqueId :=
      match extractTechniqueIdFromKey techniqueKey with
      | some tid => some tid
      | none => extractTechniqueIdFromKey (strOr techniqueName "")
    ms.findSome? (methodResolve finding techniqueKey techniqueName tacticName techniqueId)

/-! ## Step resolution of the PathVisualization component -/

/-- One attempt of the selected_techniques loop of findTechniqueFromStep:
match a technique by its stix T#### id against the step ids, else by
name containment in the lower-cased step text. -/
def pathVizTechniqueAttempt (matchingMethod : AdversarialMethod)
    (stepTechniqueIds : List String) (stepTechniqueStr : String)
    (t : Technique) : Option TechniqueInfo :=
  let stixHit :=
    match t.stix_id with
    | some sid =>
      if sid ≠ "" then
        match firstTId false sid with
        | some sm => stepTechniqueIds.any (fun id => upperStr id = upperStr sm)
        | none => false
      else false
    | none => false
  if stixHit then
    some ⟨matchingMethod.tactic_name, keyOfTechnique t, t⟩
  else
    let techniqueName := lowerStr t.name
    if techniqueName ≠ "" && containsStr stepTechniqueStr techniqueName then
      some ⟨matchingMethod.tactic_name, keyOfTechnique t, t⟩
    else none

/-- One attempt of the id loop over the tactic's registered techniques:
read a T#### id out of the technique's stix id or name and compare it to
the step ids, treating a sub-technique and its parent as equal. -/
def pathVizIndexIdAttempt (tacticName : String) (stepTechniqueIds : List String)
    (entry : String × Technique) : Option TechniqueInfo :=
  match firstTId true (strOr entry.2.stix_id entry.2.name) with
  | none => none
  | some tm0 =>
    let techniqueId := upperStr tm0
    if stepTechniqueIds.any (fun stepId =>
        let stepIdUpper := upperStr stepId
        stepIdUpper = techniqueId
          || ((splitOnChar '.' stepIdUpper).headD "") = ((splitOnChar '.' techniqueId).headD "")) then
      some ⟨tacticName, entry.1, entry.2⟩
    else none

/-- One attempt of the name loop over the tactic's registered techniques. -/
def pathVizIndexNameAttempt (tacticName : String) (stepTechniqueStr : String)
    (entry : String × Technique) : Option TechniqueInfo :=
  let techniqueName := lowerStr entry.2.name
  if techniqueName ≠ "" && containsStr stepTechniqueStr techniqueName then
    some ⟨tacticName, entry.1, entry.2⟩
  else none

/-- findTechniqueFromStep of the PathVisualization component: resolve the
technique behind a clicked flow-step node, first against the method
matching the step's tactic, then against the registered techniques of
that tactic. -/
def findTechniqueFromStep (finding : Option Finding)
    (techniquesByTactic : Option (List (String × List (String × Technique))))
    (step : AttackFlowStep) : Option TechniqueInfo :=
  match finding.bind (·.adversarial_methods), techniquesByTactic with
  | some ms, some tbt =>
    match ms.find? (fun m => m.tactic_name = step.step_mitre_tactic) with
    | none => none
    | some matchingMethod =>
      let stepTechniqueIds := allTIds false step.step_mitre_technique
      let stepTechniqueStr := lowerStr step.step_mitre_technique
      let tacticName := step.step_mitre_tactic
      let case1 : Option TechniqueInfo :=
        match matchingMethod.selected_techniques with
        | none => none
        | some ts =>
          match ts.findSome?
              (pathVizTechniqueAttempt matchingMethod stepTechniqueIds stepTechniqueStr) with
          | some r => some r
          | none =>
            match ts with
            | t0 :: _ => some ⟨matchingMethod.tactic_name, keyOfTechnique t0, t0⟩
            | [] => none
      match case1 with
      | some r => some r
      | none =>
        match List.lookup tacticName tbt with
        | none => none
        | some tacticTechniques =>
          if !stepTechniqueIds.isEmpty then
            match tacticTechniques.findSome?
                (pathVizIndexIdAttempt tacticName stepTechniqueIds) with
            | some r => some r
            | none =>
              match tacticTechniques.findSome?
                  (pathVizIndexNameAttempt tacticName stepTechniqueStr) with
              | some r => some r
              | none =>
                match tacticTechniques with
                | e0 :: _ => some ⟨tacticName, e0.1, e0.2⟩
                | [] => none
          else none
  | _, _ => none

/-! ## Navigation state of the AttackPaths component -/

/-- The four view states of the component. -/
inductive ViewType where
  | matrix
  | technique
  | finding
  | pathVisualization
deriving DecidableEq, Repr

/-- The view-local selection state of the AttackPaths component. -/
structure AppState where
  view : ViewType := .matrix
  selectedTechnique : Option TechniqueInfo := none
  selectedFinding : Option Finding := none
  selectedFindingForTechnique : Option Finding := none
  pathVisualizationFinding : Option Finding := none
deriving DecidableEq, Repr

/-- The state the component starts in. -/
def initialAppState : AppState := {}

/-- handleTechniqueClick: select the clicked technique, reset the
finding selected for the technique pane, and enter the technique view. -/
def handleTechniqueClick (tactic techniqueKey : String) (technique : Technique)
    (s : AppState) : AppState :=
  { s with
    selectedTechnique := some ⟨tactic, techniqueKey, technique⟩
    selectedFindingForTechnique := none
    view := .technique }

/-- The auto-select effect: in the technique view with a selected
technique and no finding selected yet, select the first finding
registered for the technique. -/
def autoSelectFindingEffect (findingsByTechnique : List (String × List Finding))
    (s : AppState) : AppState :=
  match s.view, s.selectedTechnique, s.selectedFindingForTechnique with
  | .technique, some st, none =>
    let fullKey := st.tactic ++ "::" ++ st.techniqueKey
    match (List.lookup fullKey findingsByTechnique).getD [] with
    | f :: _ => { s with selectedFindingForTechnique := some f }
    | [] => s
  | _, _, _ => s

/-- handleBack: one step back in the drill-down. -/
def handleBack (s : AppState) : AppState :=
  match s.view with
  | .pathVisualization => { s with view := .technique, pathVisualizationFinding := none }
  | .finding => { s with view := .technique, selectedFinding := none }
  | .technique => { s with view := .matrix, selectedTechnique := none }
  | .matrix => s

/-- handleViewInContext: enter the path-visualization view for a finding. -/
def handleViewInContext (finding : Finding) (s : AppState) : AppState :=
  { s with pathVisualizationFinding := some finding, view := .pathVisualization }

/-! ## Graph layout of the PathVisualization component -/

/-- The data of one rendered node that the layout determines. -/
structure FlowNode where
  id : String
  x : Nat
  y : Nat
  stepData : AttackFlowStep
deriving DecidableEq, Repr

/-- The data of one rendered edge that the layout determines. -/
structure FlowEdge where
  id : String
  source : String
  target : String
deriving DecidableEq, Repr

/-- initialNodes: one node per flow step, at x fifty plus three hundred
fifty times the index and a fixed y of one hundred. -/
def initialNodes (attackFlow : List AttackFlowStep) : List FlowNode :=
  attackFlow.enum.map fun p =>
    { id := "step-" ++ toString p.1
      x := 50 + 350 * p.1
      y := 100
      stepData := p.2 }

/-- initialEdges: one forward edge between each pair of consecutive
nodes. -/
def initialEdges (attackFlow : List AttackFlowStep) : List FlowEdge :=
  (List.range (attackFlow.length - 1)).map fun i =>
    { id := "step-" ++ toString i ++ "-to-step-" ++ toString (i + 1)
      source := "step-" ++ toString i
      target := "step-" ++ toString (i + 1) }

/-! ## Data loaders

The fetch of a JSON document is modelled by an Option argument: none
covers a failed request, unparsable JSON, and a document failing the
basic shape test of the source, which are all treated alike there. -/

/-- The three characters that the source template literally places
between the stix id and the technique name of a projected step. -/
def sourceDashChars : String := "â€“"

/-- Truthiness of a step id, as the source template condition sees it. -/
def stepIdTruthy : Option StepId → Bool
  | some (.num n) => n ≠ 0
  | some (.str s) => s ≠ ""
  | none => false

/-- Template rendering of a step id. -/
def stepIdStr : Option StepId → String
  | some (.num n) => toString n
  | some (.str s) => s
  | none => ""

/-- The projected display of a vector's technique on a flow step:
id, the dash characters, and the name when both are present, else
whichever is present. -/
def vectorTechniqueDisplay (stix_id : Option String) (name : String) : String :=
  if strTruthy stix_id && name ≠ "" then
    strOr stix_id "" ++ " " ++ sourceDashChars ++ " " ++ name
  else strOr stix_id name

/-- The flow-step projection of one method step of a vector. -/
def vectorFlowStep (tacticName : String) (stix_id : Option String)
    (name : String) (p : Nat × MethodStep) : AttackFlowStep :=
  { step_name :=
      if stepIdTruthy p.2.step_id then "Step " ++ stepIdStr p.2.step_id
      else "Step " ++ toString (p.1 + 1)
    step_description := p.2.description
    step_mitre_tactic := tacticName
    step_mitre_technique := vectorTechniqueDisplay stix_id name }

/-- The tactic table of transformComprehensiveAnalysisToAttackPaths, in
the iteration order of the source object literal. -/
def tacticPairs (d : ComprehensiveAnalysisResults) :
    List (String × TacticExplorerOutput) :=
  [("Initial Access", d.initial_access),
   ("Discovery", d.discovery),
   ("Execution", d.execution),
   ("Persistence", d.persistence),
   ("Privilege Escalation", d.privilege_escalation),
   ("Defense Evasion", d.defense_evasion),
   ("Credential Access", d.credential_access),
   ("Lateral Movement", d.lateral_movement),
   ("Collection", d.collection),
   ("Command and Control", d.command_and_control),
   ("Exfiltration", d.exfiltration),
   ("Impact", d.impact)]

/-- The finding synthesized from one achievable vector of one tactic. -/
def vectorToFinding (tacticName : String) (v : TacticVector) : Finding :=
  let technique : Technique :=
    { stix_id := v.technique_stix_id
      name := v.technique_name
      tactic := some tacticName }
  let attackFlowSteps := (v.method_steps.getD []).enum.map
    (vectorFlowStep tacticName v.technique_stix_id v.technique_name)
  let hypothesis : Hypothesis :=
    { starting_tactic := some tacticName
      objective_tactic := some tacticName
      attack_flow_hypothesis := some attackFlowSteps }
  let adversarialMethod : AdversarialMethod :=
    { tactic_name := tacticName
      selected_techniques := some [technique]
      method_steps := v.method_steps
      can_achieve := v.can_achieve
      capabilities_used := v.capabilities_used
      interfaces_used := v.interfaces_used
      data_accessed := v.data_accessed
      preconditions_required := v.preconditions_required
      constraints_encountered := v.constraints_encountered
      evasion_considerations := v.evasion_considerations
      resulting_access := v.resulting_access
      comments := v.comments }
  { scenario_name := some v.technique_name
    hypothesis := some hypothesis
    adversarial_methods := some [adversarialMethod]
    method := some adversarialMethod }

/-- transformComprehensiveAnalysisToAttackPaths of src/utils/dataLoaders.ts:
one finding per vector with can_achieve exactly true, across the twelve
tactics in table order. -/
def transformComprehensiveAnalysisToAttackPaths
    (d : ComprehensiveAnalysisResults) : AttackPathsData :=
  { attack_paths := (tacticPairs d).flatMap fun pair =>
      ((pair.2.vectors.filter (fun v => v.can_achieve = some true)).map
        (vectorToFinding pair.1))
    application_name := some d.application_name }

/-- The finding synthesized from one initial-access vector; the
initial-access transform keeps every vector and leaves can_achieve
unset on the synthesized method. -/
def initialAccessVectorToFinding (v : InitialAccessVector) : Finding :=
  let technique : Technique :=
    { stix_id := v.technique_stix_id
      name := v.technique_name
      tactic := some "Initial Access" }
  let attackFlowSteps := (v.method_steps.getD []).enum.map
    (vectorFlowStep "Initial Access" v.technique_stix_id v.technique_name)
  let hypothesis : Hypothesis :=
    { starting_tactic := some "Initial Access"
      objective_tactic := some "Initial Access"
      attack_flow_hypothesis := some attackFlowSteps }
  let adversarialMethod : AdversarialMethod :=
    { tactic_name := "Initial Access"
      selected_techniques := some [technique]
      method_steps := v.method_steps }
  { scenario_name := some v.technique_name
    hypothesis := some hypothesis
    adversarial_methods := some [adversarialMethod]
    method := some adversarialMethod }

/-- transformInitialAccessToAttackPaths of the multi-format loader. -/
def transformInitialAccessToAttackPaths (d : InitialAccessData) : AttackPathsData :=
  { attack_paths := d.initial_access_vectors.map initialAccessVectorToFinding }

/-- The structural test of the technique-first dialect: some method of
some path carries a selected_techniques array. -/
def hasSlackFormat (raw : AttackPathsData) : Bool :=
  raw.attack_paths.any fun path =>
    (path.adversarial_methods.getD []).any fun m => m.selected_techniques.isSome

/-- The structural test of the step-first dialect: some method of some
path carries method_steps plus one of the descriptive list fields and no
non-empty selected_techniques. -/
def hasMiro1PasswordFormat (raw : AttackPathsData) : Bool :=
  raw.attack_paths.any fun path =>
    (path.adversarial_methods.getD []).any fun m =>
      m.method_steps.isSome
        && (m.capabilities_used.isSome || m.interfaces_used.isSome
            || m.data_accessed.isSome)
        && (m.selected_techniques.isNone || m.selected_techniques = some [])

/-- loadSlackFormatAttackPaths: the fetched document when it passes the
technique-first structural test. -/
def loadSlackFormatAttackPaths (fetchAP : Option AttackPathsData) :
    Option AttackPathsData :=
  match fetchAP with
  | none => none
  | some raw => if hasSlackFormat raw then some raw else none

/-- loadMiro1PasswordFormatAttackPaths: the fetched document when it
passes the step-first structural test. -/
def loadMiro1PasswordFormatAttackPaths (fetchAP : Option AttackPathsData) :
    Option AttackPathsData :=
  match fetchAP with
  | none => none
  | some raw => if hasMiro1PasswordFormat raw then some raw else none

/-- loadInitialAccessData: the fetched document when it passes the
validation of the source (truthy application name and a vectors array). -/
def loadInitialAccessData (fetchIA : Option InitialAccessData) :
    Option InitialAccessData :=
  match fetchIA with
  | none => none
  | some d => if d.application_name ≠ "" then some d else none

/-- The message of the error thrown by the multi-format loader when all
candidate shapes fail, exactly as the source assembles it. -/
def dataUnavailableMessage (appName : String) : String :=
  "Failed to load attack paths data for " ++ appName ++ ". " ++
  (if appName = "box" ∨ appName = "klaviyo" then
    "Tried: (1) Initial access data from data/initial_access/" ++ appName ++
    "_initial_access_vectors.json, (2) Attack paths from data/attack_paths/" ++
    appName ++ "_attack_paths.json. "
  else
    "Tried: (1) Slack format (with selected_techniques), (2) Miro/1Password format (with method_steps as strings). ") ++
  "None of the formats could be parsed successfully."

/-- The dialect an accepted document is classified as. -/
inductive LoadOutcome where
  | initialAccessShape (d : AttackPathsData)
  | slackShape (d : AttackPathsData)
  | miroShape (d : AttackPathsData)
  | failure (msg : String)
deriving DecidableEq, Repr

/-- The multi-format loadAttackPathsData, with the branch that produced
the result recorded in the outcome: for box and klaviyo the
initial-access document first, then the app-specific early probes, then
the technique-first probe, then the step-first probe, else the error. -/
def classifyAttackPathsLoad (appName : String)
    (fetchIA : Option InitialAccessData) (fetchAP : Option AttackPathsData) :
    LoadOutcome :=
  let iaTry :=
    if appName = "box" ∨ appName = "klaviyo" then loadInitialAccessData fetchIA
    else none
  match iaTry with
  | some d => .initialAccessShape (transformInitialAccessToAttackPaths d)
  | none =>
    let slack1 := if appName = "slack" then loadSlackFormatAttackPaths fetchAP else none
    match slack1 with
    | some d => .slackShape d
    | none =>
      let miro1 :=
        if appName = "miro" ∨ appName = "1password" then
          loadMiro1PasswordFormatAttackPaths fetchAP
        else none
      match miro1 with
      | some d => .miroShape d
      | none =>
        match loadSlackFormatAttackPaths fetchAP with
        | some d => .slackShape d
        | none =>
          match loadMiro1PasswordFormatAttackPaths fetchAP with
          | some d => .miroShape d
          | none => .failure (dataUnavailableMessage appName)

/-- The multi-format loadAttackPathsData as the caller sees it: the
loaded data or the thrown error message. -/
def loadAttackPathsDataMulti (appName : String)
    (fetchIA : Option InitialAccessData) (fetchAP : Option AttackPathsData) :
    Except String AttackPathsData :=
  match classifyAttackPathsLoad appName fetchIA fetchAP with
  | .initialAccessShape d => .ok d
  | .slackShape d => .ok d
  | .miroShape d => .ok d
  | .failure msg => .error msg

/-- The validation of loadComprehensiveAnalysisData: the fetched
document with a truthy application name and all twelve tactic fields. -/
def loadComprehensiveAnalysisData (fetch : Option ComprehensiveAnalysisResults) :
    Option ComprehensiveAnalysisResults :=
  match fetch with
  | none => none
  | some d => if d.application_name ≠ "" then some d else none

/-- The message of the error thrown by the comprehensive-only
loadAttackPathsData of src/utils/dataLoaders.ts. -/
def comprehensiveUnavailableMessage (appName : String) : String :=
  "Comprehensive analysis data not found for " ++ appName ++
  ". Expected file: data/comprehensive/" ++ appName ++ "_comprehensive_analysis.json"

/-- The comprehensive-only loadAttackPathsData of
src/utils/dataLoaders.ts. -/
def loadAttackPathsDataComprehensive (appName : String)
    (fetch : Option ComprehensiveAnalysisResults) : Except String AttackPathsData :=
  match loadComprehensiveAnalysisData fetch with
  | none => .error (comprehensiveUnavailableMessage appName)
  | some d => .ok (transformComprehensiveAnalysisToAttackPaths d)

/-! ## Concrete datasets used by the scenario theorems -/

/-- The step-first scenario method: tactic Execution, achievable, no
selected techniques. -/
def c4Method : AdversarialMethod :=
  { tactic_name := "Execution", can_achieve := some true }

/-- The step-first scenario finding with one Execution step whose
technique text is the dash display for T1059. -/
def c4Finding : Finding :=
  { scenario_name := some "Scenario A"
    hypothesis := some
      { attack_flow_hypothesis := some
          [{ step_name := "Step 1"
             step_description := "Run the interpreter"
             step_mitre_tactic := "Execution"
             step_mitre_technique := "T1059 – Command Interpreter" }] }
    adversarial_methods := some [c4Method] }

/-- A finding identical to the scenario one except that the single step
appears twice, to exhibit the seen-segment skip. -/
def c4FindingDup : Finding :=
  { scenario_name := some "Scenario A"
    hypothesis := some
      { attack_flow_hypothesis := some
          [{ step_name := "Step 1"
             step_description := "Run the interpreter"
             step_mitre_tactic := "Execution"
             step_mitre_technique := "T1059 – Command Interpreter" },
           { step_name := "Step 2"
             step_description := "Run it again"
             step_mitre_tactic := "Execution"
             step_mitre_technique := "T1059 – Command Interpreter" }] }
    adversarial_methods := some [c4Method] }

/-- A method that omits the can_achieve flag but carries a selected
technique. -/
def c1Method : AdversarialMethod :=
  { tactic_name := "Execution"
    selected_techniques := some [{ stix_id := some "T1059", name := "Command Interpreter" }] }

/-- A finding whose only method omits the can_achieve flag. -/
def c1Finding : Finding :=
  { scenario_name := some "Omitted flag scenario"
    adversarial_methods := some [c1Method] }

/-- The comprehensive-shape scenario input: one achievable phishing
vector under initial access, every other tactic empty. -/
def c5Comp : ComprehensiveAnalysisResults :=
  { application_name := "app"
    initial_access := ⟨[{ can_achieve := some true
                          technique_name := "Phishing"
                          technique_stix_id := some "T1566"
                          method_steps := some [{ description := "Send email" }] }]⟩
    discovery := ⟨[]⟩
    execution := ⟨[]⟩
    persistence := ⟨[]⟩
    privilege_escalation := ⟨[]⟩
    defense_evasion := ⟨[]⟩
    credential_access := ⟨[]⟩
    lateral_movement := ⟨[]⟩
    collection := ⟨[]⟩
    command_and_control := ⟨[]⟩
    exfiltration := ⟨[]⟩
    impact := ⟨[]⟩ }

/-- A document that satisfies both structural dialect tests at once: one
method carries selected_techniques, a second method carries method_steps
with a descriptive list and no selected_techniques. -/
def bothShapesDoc : AttackPathsData :=
  { attack_paths :=
      [{ scenario_name := some "Mixed"
         adversarial_methods := some
           [{ tactic_name := "Execution"
              selected_techniques := some [{ name := "X" }] },
            { tactic_name := "Persistence"
              method_steps := some [{ description := "do it" }]
              capabilities_used := some ["c"] }] }] }

/-- The first method of the step-resolution counterexample: matching
tactic, no selected techniques. -/
def c10MethodBare : AdversarialMethod := { tactic_name := "Execution" }

/-- The second method of the step-resolution counterexample: matching
tactic and a non-empty selected_techniques list. -/
def c10MethodWithTechniques : AdversarialMethod :=
  { tactic_name := "Execution"
    selected_techniques := some [{ stix_id := some "T1059", name := "Command Interpreter" }] }

/-- The finding of the step-resolution counterexample. -/
def c10Finding : Finding :=
  { scenario_name := some "Order matters"
    adversarial_methods := some [c10MethodBare, c10MethodWithTechniques] }

/-- A step whose free text carries no T#### id. -/
def c10Step : AttackFlowStep :=
  { step_name := "Step 1"
    step_description := "run something"
    step_mitre_tactic := "Execution"
    step_mitre_technique := "some unidentified action" }

/-- The finding shown in the technique pane of the navigation
counterexample. -/
def c2Finding : Finding := { scenario_name := some "Nav scenario" }

/-- The technique clicked in the navigation counterexample. -/
def c2Technique : Technique := { stix_id := some "T1059", name := "Command Interpreter" }

/-- The findings-by-technique index of the navigation counterexample. -/
def c2FindingsByTechnique : List (String × List Finding) :=
  [("Execution::T1059", [c2Finding])]

/-- The state reached by clicking the technique cell, running the
auto-select effect, and pressing back. -/
def c2StateAfterBack : AppState :=
  handleBack (autoSelectFindingEffect c2FindingsByTechnique
    (handleTechniqueClick "Execution" "T1059" c2Technique initialAppState))

/-! ## Helper inputs for the resolution-miss and ok-path witnesses -/

/-- A finding used to witness the resolution miss: one method with one
selected technique keyed T1059. -/
def c7Finding : Finding :=
  { scenario_name := some "Miss scenario"
    adversarial_methods := some
      [{ tactic_name := "Execution"
         selected_techniques := some [{ stix_id := some "T1059", name := "Command Interpreter" }] }] }

/-- A finding whose first Execution method carries a non-empty
selected_techniques list. -/
def c10GoodFinding : Finding :=
  { scenario_name := some "Good order"
    adversarial_methods := some [c10MethodWithTechniques] }

/-! ## Theorems -/

/-- C1 counterexample: a method that omits the can_achieve flag and
carries a selected technique registers nothing at all, so the claim that
formats omitting the flag are treated as achievable by default and still
have their techniques and findings registered is false on this input. -/
theorem c1_counterexample :
    c1Method.can_achieve = none ∧
    c1Method.selected_techniques ≠ some [] ∧
    c1Method.selected_techniques.isSome = true ∧
    c1Finding.adversarial_methods = some [c1Method] ∧
    (loadDataIndexes [c1Finding]).techniquesMap = [] ∧
    (loadDataIndexes [c1Finding]).findingsMap = [] := by
  decide

/-- C1 amended: a method contributes entries to the indexes only when
its can_achieve flag is exactly true; a method whose flag is false or
absent leaves both indexes unchanged. -/
theorem c1_only_explicitly_achievable_contributes
    (attackPath : Finding) (st : IndexState) (m : AdversarialMethod)
    (h : m.can_achieve ≠ some true) :
    processMethod attackPath st m = st := by
  unfold processMethod
  by_cases ht : m.tactic_name = ""
  · simp [ht]
  · simp [ht, h]

/-- Witness for the amended C1 statement at the concrete omitted-flag
method. -/
theorem c1_only_explicitly_achievable_contributes_witness :
    c1Method.can_achieve ≠ some true ∧
    processMethod c1Finding ⟨[], []⟩ c1Method = ⟨[], []⟩ :=
  ⟨by decide, c1_only_explicitly_achievable_contributes c1Finding ⟨[], []⟩ c1Method (by decide)⟩

/-- The composite navigation trace of the C2 scenario: click a technique
cell, let the auto-select effect run, press back. -/
def navClickThenBack (fbt : List (String × List Finding)) (s : AppState)
    (tacticStr techniqueKey : String) (technique : Technique) : AppState :=
  handleBack (autoSelectFindingEffect fbt
    (handleTechniqueClick tacticStr techniqueKey technique s))

/-- C2 counterexample: after clicking a technique cell and pressing
back, the component is back in the matrix view with the selected
technique cleared, but the finding selected for the technique pane is
still set, so downstream selection state is not fully cleared. -/
theorem c2_counterexample :
    c2StateAfterBack.view = ViewType.matrix ∧
    c2StateAfterBack.selectedTechnique = none ∧
    c2StateAfterBack.selectedFinding = none ∧
    c2StateAfterBack.selectedFindingForTechnique = some c2Finding ∧
    c2StateAfterBack.selectedFindingForTechnique ≠ none := by
  decide

/-- C2 amended: from any state, clicking a technique cell and pressing
back returns to the matrix view with the selected technique cleared and
selectedFinding untouched, pressing back again changes nothing, and the
next technique click starts with no selected finding for the pane, so
the residual pane selection never leaks into the next drill-down. -/
theorem c2_back_clears_technique_and_next_click_resets
    (fbt : List (String × List Finding)) (s : AppState)
    (tacticStr techniqueKey : String) (technique : Technique) :
    (navClickThenBack fbt s tacticStr techniqueKey technique).view = ViewType.matrix ∧
    (navClickThenBack fbt s tacticStr techniqueKey technique).selectedTechnique = none ∧
    (navClickThenBack fbt s tacticStr techniqueKey technique).selectedFinding
      = s.selectedFinding ∧
    handleBack (navClickThenBack fbt s tacticStr techniqueKey technique)
      = navClickThenBack fbt s tacticStr techniqueKey technique ∧
    (∀ t2 k2 : String, ∀ q2 : Technique,
      (handleTechniqueClick t2 k2 q2
        (navClickThenBack fbt s tacticStr techniqueKey technique)).selectedFindingForTechnique
        = none ∧
      (handleTechniqueClick t2 k2 q2
        (navClickThenBack fbt s tacticStr techniqueKey technique)).selectedTechnique
        = some ⟨t2, k2, q2⟩) := by
  unfold navClickThenBack handleTechniqueClick autoSelectFindingEffect
  cases h : (List.lookup (tacticStr ++ "::" ++ techniqueKey) fbt).getD [] with
  | nil => simp [h, handleBack]
  | cons f rest => simp [h, handleBack]

/-- C3 counterexample: the same attack-paths document body that
satisfies both structural dialect tests is classified as the
step-first dialect for the application name miro and as the
technique-first dialect for the application name github, so dialect
selection is not independent of the application name. -/
theorem c3_counterexample :
    hasSlackFormat bothShapesDoc = true ∧
    hasMiro1PasswordFormat bothShapesDoc = true ∧
    classifyAttackPathsLoad "miro" none (some bothShapesDoc)
      = LoadOutcome.miroShape bothShapesDoc ∧
    classifyAttackPathsLoad "github" none (some bothShapesDoc)
      = LoadOutcome.slackShape bothShapesDoc ∧
    LoadOutcome.miroShape bothShapesDoc ≠ LoadOutcome.slackShape bothShapesDoc := by
  decide

/-- C3 amended: each dialect test is purely structural, and a body
satisfying exactly one of the two tests is classified the same way for
every application name (with no initial-access document present), but
the probing order depends on the application name, so a body satisfying
both tests is classified step-first exactly for the application names
miro and 1password and technique-first otherwise. -/
theorem c3_structural_tests_with_name_dependent_order
    (appName : String) (body : AttackPathsData) :
    (hasSlackFormat body = true → hasMiro1PasswordFormat body = false →
      classifyAttackPathsLoad appName none (some body) = LoadOutcome.slackShape body) ∧
    (hasSlackFormat body = false → hasMiro1PasswordFormat body = true →
      classifyAttackPathsLoad appName none (some body) = LoadOutcome.miroShape body) ∧
    (hasSlackFormat body = true → hasMiro1PasswordFormat body = true →
      classifyAttackPathsLoad appName none (some body)
        = if appName = "miro" ∨ appName = "1password" then LoadOutcome.miroShape body
          else LoadOutcome.slackShape body) ∧
    (hasSlackFormat body = false → hasMiro1PasswordFormat body = false →
      classifyAttackPathsLoad appName none (some body)
        = LoadOutcome.failure (dataUnavailableMessage appName)) := by
  refine ⟨?_, ?_, ?_, ?_⟩ <;> intro h1 h2 <;>
    simp only [classifyAttackPathsLoad, loadInitialAccessData,
      loadSlackFormatAttackPaths, loadMiro1PasswordFormatAttackPaths, h1, h2,
      ite_self, if_true, if_false, Bool.false_eq_true] <;>
    by_cases hs : appName = "slack" <;>
    by_cases hm : appName = "miro" ∨ appName = "1password" <;>
    simp [hs, hm]

/-- Witness for the amended C3 statement: the both-shapes body at the
application name miro goes to the step-first dialect. -/
theorem c3_structural_tests_witness :
    hasSlackFormat bothShapesDoc = true ∧
    hasMiro1PasswordFormat bothShapesDoc = true ∧
    classifyAttackPathsLoad "miro" none (some bothShapesDoc)
      = LoadOutcome.miroShape bothShapesDoc :=
  ⟨by decide, by decide, by
    have h := (c3_structural_tests_with_name_dependent_order "miro" bothShapesDoc).2.2.1
      (by decide) (by decide)
    simpa using h⟩

/-- C4: the step-first scenario.  For an achievable Execution method
with no selected techniques and one Execution step whose technique text
is the dash display for T1059, the index build derives exactly one
technique named Command Interpreter keyed attack-pattern--t1059, records
the finding once under the full key with the method attached, and a
duplicate of the same segment in a second step registers nothing new. -/
theorem c4_step_first_scenario :
    List.lookup "Execution" (loadDataIndexes [c4Finding]).techniquesMap
      = some [("attack-pattern--t1059",
          { stix_id := some "attack-pattern--t1059"
            name := "Command Interpreter"
            rationale := some "Run the interpreter"
            tactic := some "Execution" })] ∧
    (loadDataIndexes [c4Finding]).findingsMap
      = [("Execution::attack-pattern--t1059", [{ c4Finding with method := some c4Method }])] ∧
    List.lookup "Execution" (loadDataIndexes [c4FindingDup]).techniquesMap
      = some [("attack-pattern--t1059",
          { stix_id := some "attack-pattern--t1059"
            name := "Command Interpreter"
            rationale := some "Run the interpreter"
            tactic := some "Execution" })] ∧
    (List.lookup "Execution::attack-pattern--t1059"
        (loadDataIndexes [c4FindingDup]).findingsMap).map List.length = some 1 := by
  decide

/-- The dataset produced by transforming the comprehensive scenario
input. -/
def c5Out : AttackPathsData := transformComprehensiveAnalysisToAttackPaths c5Comp

/-- C5: on the comprehensive scenario input the transform produces
exactly one finding named Phishing with a single-element
selected_techniques, the index records it once under Initial
Access::T1566, but the projected step display joins the id and the name
with the literal characters of the source template instead of an en
dash, so the displayed text differs from the documented form. -/
theorem c5_comprehensive_scenario :
    c5Out.attack_paths.length = 1 ∧
    c5Out.attack_paths.map (·.scenario_name) = [some "Phishing"] ∧
    c5Out.attack_paths.map (fun f => f.method.map (·.selected_techniques))
      = [some (some [{ stix_id := some "T1566", name := "Phishing",
                       tactic := some "Initial Access" }])] ∧
    (List.lookup "Initial Access::T1566"
        (loadDataIndexes c5Out.attack_paths).findingsMap).map List.length = some 1 ∧
    c5Out.attack_paths.map (fun f => (hypFlow f).map (·.step_mitre_technique))
      = [["T1566 " ++ sourceDashChars ++ " Phishing"]] ∧
    "T1566 " ++ sourceDashChars ++ " Phishing" ≠ "T1566 – Phishing" := by
  decide

/-- C6: sub-technique matching is symmetric, T1098.003 matches T1098 in
both directions, and in general two ids match exactly when their parts
before the first dot agree. -/
theorem c6_subtechnique_match_symmetric :
    (∀ id1 id2 : String, techniqueIdsMatch id1 id2 = techniqueIdsMatch id2 id1) ∧
    techniqueIdsMatch "T1098.003" "T1098" = true ∧
    techniqueIdsMatch "T1098" "T1098.003" = true ∧
    (∀ id1 id2 : String,
      techniqueIdsMatch id1 id2
        = (((splitOnChar '.' id1).headD "") == ((splitOnChar '.' id2).headD ""))) := by
  refine ⟨?_, by decide, by decide, fun id1 id2 => rfl⟩
  intro id1 id2
  unfold techniqueIdsMatch
  by_cases h : ((splitOnChar '.' id1).headD "") = ((splitOnChar '.' id2).headD "")
  · rw [h]
  · have h2 : ((splitOnChar '.' id2).headD "") ≠ ((splitOnChar '.' id1).headD "") :=
      fun e => h e.symm
    rw [beq_eq_false_iff_ne.mpr h, beq_eq_false_iff_ne.mpr h2]

/-- C7: when the requested key yields no extractable technique id and no
method's selected techniques carry the requested key, technique-specific
resolution returns the empty result; the resolution function is total by
construction, so this miss is a value, not an exception. -/
theorem c7_resolution_miss_is_empty
    (finding : Finding) (techniqueKey : String) (techniqueName : Option String)
    (tacticName : String)
    (h1 : extractTechniqueIdFromKey techniqueKey = none)
    (h2 : extractTechniqueIdFromKey (strOr techniqueName "") = none)
    (h3 : ∀ m ∈ finding.adversarial_methods.getD [],
      ∀ t ∈ m.selected_techniques.getD [], keyOfTechnique t ≠ techniqueKey) :
    getTechniqueSpecificInfo finding techniqueKey techniqueName tacticName = none := by
  unfold getTechniqueSpecificInfo
  cases hms : finding.adversarial_methods with
  | none => rfl
  | some ms =>
    rw [h1, h2]
    rw [List.findSome?_eq_none_iff]
    intro m hm
    have hm' : m ∈ finding.adversarial_methods.getD [] := by rw [hms]; exact hm
    unfold methodResolve
    split
    · rfl
    · cases hsel : m.selected_techniques with
      | none => rfl
      | some ts =>
        have hfind : ts.find? (fun t => keyOfTechnique t = techniqueKey) = none := by
          rw [List.find?_eq_none]
          intro t ht
          have := h3 m hm' t (by rw [hsel]; exact ht)
          simpa using this
        simp only [hfind]
        rfl

/-- Witness for the resolution miss: a key absent from the finding's
method and free of technique ids resolves to the empty result. -/
theorem c7_resolution_miss_is_empty_witness :
    extractTechniqueIdFromKey "Nonexistent Key" = none ∧
    getTechniqueSpecificInfo c7Finding "Nonexistent Key" none "Execution" = none :=
  ⟨by decide,
   c7_resolution_miss_is_empty c7Finding "Nonexistent Key" none "Execution"
     (by decide) (by decide) (by decide)⟩

/-- A successful format probe returns the fetched body itself. -/
theorem loadSlackFormat_eq_some {fap : Option AttackPathsData} {d : AttackPathsData}
    (h : loadSlackFormatAttackPaths fap = some d) : fap = some d := by
  unfold loadSlackFormatAttackPaths at h
  cases fap with
  | none => exact absurd h (by simp)
  | some raw =>
    by_cases hs : hasSlackFormat raw
    · simp [hs] at h; rw [h]
    · simp [hs] at h

/-- A successful step-first probe returns the fetched body itself. -/
theorem loadMiroFormat_eq_some {fap : Option AttackPathsData} {d : AttackPathsData}
    (h : loadMiro1PasswordFormatAttackPaths fap = some d) : fap = some d := by
  unfold loadMiro1PasswordFormatAttackPaths at h
  cases fap with
  | none => exact absurd h (by simp)
  | some raw =>
    by_cases hs : hasMiro1PasswordFormat raw
    · simp [hs] at h; rw [h]
    · simp [hs] at h

/-- Functional characterization of the multi-format loader: the result
is determined by the three probe outcomes, independent of the
application-specific probing order. -/
theorem loadMulti_eq (appName : String) (fia : Option InitialAccessData)
    (fap : Option AttackPathsData) :
    loadAttackPathsDataMulti appName fia fap =
      match (if appName = "box" ∨ appName = "klaviyo" then loadInitialAccessData fia
             else none),
          loadSlackFormatAttackPaths fap, loadMiro1PasswordFormatAttackPaths fap with
      | some ia, _, _ => .ok (transformInitialAccessToAttackPaths ia)
      | none, some d, _ => .ok d
      | none, none, some d => .ok d
      | none, none, none => .error (dataUnavailableMessage appName) := by
  unfold loadAttackPathsDataMulti classifyAttackPathsLoad
  cases hia : (if appName = "box" ∨ appName = "klaviyo" then loadInitialAccessData fia
               else none) with
  | some ia => simp
  | none =>
    cases hs : loadSlackFormatAttackPaths fap with
    | some d =>
      by_cases ha1 : appName = "slack"
      · simp [ha1, hs]
      · by_cases ha2 : appName = "miro" ∨ appName = "1password"
        · cases hm : loadMiro1PasswordFormatAttackPaths fap with
          | some d2 =>
            have e1 := loadSlackFormat_eq_some hs
            have e2 := loadMiroFormat_eq_some hm
            rw [e1] at e2
            injection e2 with e3
            simp [ha1, ha2, hs, hm, e3]
          | none => simp [ha1, ha2, hs, hm]
        · simp [ha1, ha2, hs]
    | none =>
      cases hm : loadMiro1PasswordFormatAttackPaths fap with
      | some d =>
        by_cases ha1 : appName = "slack"
        · simp [ha1, hs, hm]
        · by_cases ha2 : appName = "miro" ∨ appName = "1password"
          · simp [ha1, ha2, hs, hm]
          · simp [ha1, ha2, hs, hm]
      | none =>
        by_cases ha1 : appName = "slack" <;>
          by_cases ha2 : appName = "miro" ∨ appName = "1password" <;>
            simp [ha1, ha2, hs, hm]

/-- C8: when every candidate shape fails, the multi-format loader
produces exactly one error, whose message is the assembled unavailable
text carrying the application name and the list of shapes attempted;
this error is the only failure outcome, and every success carries a
document that passed one of the structural probes in full, so no
partial dataset is returned.  The comprehensive-only loader of
src/utils/dataLoaders.ts has the same shape: its only error is the
not-found message carrying the application name and the expected path. -/
theorem c8_data_unavailable_is_sole_failure
    (appName : String) (fia : Option InitialAccessData)
    (fap : Option AttackPathsData) (fc : Option ComprehensiveAnalysisResults) :
    (∀ msg, loadAttackPathsDataMulti appName fia fap = .error msg →
      msg = dataUnavailableMessage appName ∧
      loadSlackFormatAttackPaths fap = none ∧
      loadMiro1PasswordFormatAttackPaths fap = none ∧
      ((appName = "box" ∨ appName = "klaviyo") → loadInitialAccessData fia = none)) ∧
    ((loadSlackFormatAttackPaths fap = none ∧
      loadMiro1PasswordFormatAttackPaths fap = none ∧
      ((appName = "box" ∨ appName = "klaviyo") → loadInitialAccessData fia = none)) →
      loadAttackPathsDataMulti appName fia fap
        = .error (dataUnavailableMessage appName)) ∧
    (∀ d, loadAttackPathsDataMulti appName fia fap = .ok d →
      (∃ ia, loadInitialAccessData fia = some ia ∧
        d = transformInitialAccessToAttackPaths ia) ∨
      loadSlackFormatAttackPaths fap = some d ∨
      loadMiro1PasswordFormatAttackPaths fap = some d) ∧
    (∃ s t, dataUnavailableMessage appName = s ++ appName ++ t) ∧
    (∀ msg, loadAttackPathsDataComprehensive appName fc = .error msg →
      msg = comprehensiveUnavailableMessage appName ∧
      loadComprehensiveAnalysisData fc = none) ∧
    (∃ s t, comprehensiveUnavailableMessage appName = s ++ appName ++ t) := by
  have key := loadMulti_eq appName fia fap
  refine ⟨?_, ?_, ?_, ?_, ?_, ?_⟩
  · intro msg hmsg
    rw [key] at hmsg
    by_cases hbk : appName = "box" ∨ appName = "klaviyo"
    · cases hia : loadInitialAccessData fia with
      | some ia => rw [if_pos hbk, hia] at hmsg; simp at hmsg
      | none =>
        rw [if_pos hbk, hia] at hmsg
        cases hs : loadSlackFormatAttackPaths fap with
        | some d => rw [hs] at hmsg; simp at hmsg
        | none =>
          cases hm : loadMiro1PasswordFormatAttackPaths fap with
          | some d => rw [hs, hm] at hmsg; simp at hmsg
          | none =>
            rw [hs, hm] at hmsg
            simp at hmsg
            exact ⟨hmsg.symm, rfl, rfl, fun _ => rfl⟩
    · rw [if_neg hbk] at hmsg
      cases hs : loadSlackFormatAttackPaths fap with
      | some d => rw [hs] at hmsg; simp at hmsg
      | none =>
        cases hm : loadMiro1PasswordFormatAttackPaths fap with
        | some d => rw [hs, hm] at hmsg; simp at hmsg
        | none =>
          rw [hs, hm] at hmsg
          simp at hmsg
          exact ⟨hmsg.symm, rfl, rfl, fun hk => absurd hk hbk⟩
  · intro ⟨hs, hm, hbk⟩
    rw [key, hs, hm]
    by_cases hb : appName = "box" ∨ appName = "klaviyo"
    · rw [if_pos hb, hbk hb]
    · rw [if_neg hb]
  · intro d hd
    rw [key] at hd
    by_cases hb : appName = "box" ∨ appName = "klaviyo"
    · rw [if_pos hb] at hd
      cases hia : loadInitialAccessData fia with
      | some ia =>
        rw [hia] at hd
        simp at hd
        exact Or.inl ⟨ia, rfl, hd.symm⟩
      | none =>
        rw [hia] at hd
        cases hs : loadSlackFormatAttackPaths fap with
        | some d2 => rw [hs] at hd; simp at hd; exact Or.inr (Or.inl (congrArg some hd))
        | none =>
          cases hm : loadMiro1PasswordFormatAttackPaths fap with
          | some d2 => rw [hs, hm] at hd; simp at hd; exact Or.inr (Or.inr (congrArg some hd))
          | none => rw [hs, hm] at hd; simp at hd
    · rw [if_neg hb] at hd
      cases hs : loadSlackFormatAttackPaths fap with
      | some d2 => rw [hs] at hd; simp at hd; exact Or.inr (Or.inl (congrArg some hd))
      | none =>
        cases hm : loadMiro1PasswordFormatAttackPaths fap with
        | some d2 => rw [hs, hm] at hd; simp at hd; exact Or.inr (Or.inr (congrArg some hd))
        | none => rw [hs, hm] at hd; simp at hd
  · refine ⟨"Failed to load attack paths data for ",
      ". " ++
      (if appName = "box" ∨ appName = "klaviyo" then
        "Tried: (1) Initial access data from data/initial_access/" ++ appName ++
        "_initial_access_vectors.json, (2) Attack paths from data/attack_paths/" ++
        appName ++ "_attack_paths.json. "
      else
        "Tried: (1) Slack format (with selected_techniques), (2) Miro/1Password format (with method_steps as strings). ") ++
      "None of the formats could be parsed successfully.", ?_⟩
    unfold dataUnavailableMessage
    simp [String.append_assoc]
  · intro msg hmsg
    unfold loadAttackPathsDataComprehensive at hmsg
    cases hc : loadComprehensiveAnalysisData fc with
    | none => rw [hc] at hmsg; simp at hmsg; exact ⟨hmsg.symm, rfl⟩
    | some d => rw [hc] at hmsg; simp at hmsg
  · refine ⟨"Comprehensive analysis data not found for ",
      ". Expected file: data/comprehensive/" ++ appName ++ "_comprehensive_analysis.json", ?_⟩
    unfold comprehensiveUnavailableMessage
    simp [String.append_assoc]

/-- Witness for the loader failure: with no document available for an
unspecial application name, the loader produces exactly the assembled
error. -/
theorem c8_data_unavailable_is_sole_failure_witness :
    loadAttackPathsDataMulti "github" none none
      = .error (dataUnavailableMessage "github") :=
  (c8_data_unavailable_is_sole_failure "github" none none none).2.1
    ⟨rfl, rfl, by decide⟩

/-- C9: the layout is a linear chain: one node per step at x fifty plus
three hundred fifty times its index with a fixed y of one hundred, and
exactly one forward edge from each node to its successor, so there are
length minus one edges, no branching and no cycle. -/
theorem c9_linear_chain_layout (steps : List AttackFlowStep) :
    (initialNodes steps).length = steps.length ∧
    (initialEdges steps).length = steps.length - 1 ∧
    (∀ i, (initialNodes steps).get? i = (steps.get? i).map fun st =>
      { id := "step-" ++ toString i, x := 50 + 350 * i, y := 100, stepData := st }) ∧
    (∀ i, (initialEdges steps).get? i =
      if i < steps.length - 1 then
        some { id := "step-" ++ toString i ++ "-to-step-" ++ toString (i + 1)
               source := "step-" ++ toString i
               target := "step-" ++ toString (i + 1) }
      else none) := by
  refine ⟨?_, ?_, ?_, ?_⟩
  · simp [initialNodes, List.enum_length]
  · simp [initialEdges, List.length_range]
  · intro i
    rw [initialNodes, List.get?_map, List.get?_enum]
    cases steps.get? i <;> rfl
  · intro i
    by_cases hi : i < steps.length - 1
    · rw [initialEdges, List.get?_map, List.get?_range hi, if_pos hi]
      rfl
    · have hlen : (initialEdges steps).length ≤ i := by
        simp only [initialEdges, List.length_map, List.length_range]
        omega
      rw [List.get?_eq_none.mpr hlen, if_neg hi]

/-- C10 counterexample: the finding holds a method with the step's
tactic and a non-empty selected_techniques list, yet the step resolves
to the empty result, because the first method found for the tactic has
no selected techniques and the step text carries no technique id. -/
theorem c10_counterexample :
    c10Finding.adversarial_methods = some [c10MethodBare, c10MethodWithTechniques] ∧
    c10MethodWithTechniques.tactic_name = c10Step.step_mitre_tactic ∧
    (c10MethodWithTechniques.selected_techniques.getD []).length = 1 ∧
    findTechniqueFromStep (some c10Finding) (some []) c10Step = none := by
  decide

/-- C10 amended: when the first method whose tactic matches the step's
tactic carries a non-empty selected_techniques list, the step resolution
always returns a result, falling back to that method's first technique
when neither the id match nor the name match succeeds. -/
theorem c10_first_matching_method_resolves
    (finding : Finding) (ms : List AdversarialMethod)
    (tbt : List (String × List (String × Technique))) (step : AttackFlowStep)
    (m : AdversarialMethod) (t0 : Technique) (ts : List Technique)
    (hms : finding.adversarial_methods = some ms)
    (hfind : ms.find? (fun mm => mm.tactic_name = step.step_mitre_tactic) = some m)
    (hsel : m.selected_techniques = some (t0 :: ts)) :
    (findTechniqueFromStep (some finding) (some tbt) step).isSome = true := by
  unfold findTechniqueFromStep
  simp only [Option.some_bind]
  rw [hms]
  simp only []
  rw [hfind]
  simp only [hsel]
  cases hfs : (t0 :: ts).findSome?
      (pathVizTechniqueAttempt m (allTIds false step.step_mitre_technique)
        (lowerStr step.step_mitre_technique)) with
  | some r => simp [hfs]
  | none => simp [hfs]

/-- Witness for the amended C10 statement at a concrete finding whose
only method carries one selected technique. -/
theorem c10_first_matching_method_resolves_witness :
    (findTechniqueFromStep (some c10GoodFinding) (some []) c10Step).isSome = true :=
  c10_first_matching_method_resolves c10GoodFinding [c10MethodWithTechniques] []
    c10Step c10MethodWithTechniques
    { stix_id := some "T1059", name := "Command Interpreter" } []
    rfl (by decide) rfl
